import Mathlib

/-!
Verification of the Plugin Collection Manager
(`src/v3/@claude-flow/cli/src/config-adapter.ts`, class `PluginCollectionManager`).

The TypeScript class is shallowly embedded: its mutable fields become a
`ManagerState` record threaded explicitly through every operation, JS `Map`s
become insertion-ordered association lists, JS `Set`s become insertion-ordered
duplicate-free lists, and a thrown exception becomes an `Except.error` result
paired with the state as mutated up to the throw point (JS exceptions do not
roll back earlier field mutations).  The external `PluginRegistry` is not part
of the repository sources; it is modelled from the spec (§6) as an abstract
state with explicit failure sets.

Awaited `async` calls are ordinary sequential calls (spec §5: single-threaded
cooperative execution).  Crucially, the source also calls the `async` helpers
`findPluginEntry` and `isPluginEnabled` WITHOUT `await` at lines 300, 361,
386, 414, 623 and 765; those call sites are embedded with their actual
JavaScript semantics rather than the intended ones: the call yields a Promise
object, which is truthy in a Boolean position and has no `.plugin` property,
so the not-found guards are dead, `resolvePlugin(entry.plugin)` resolves to
`undefined`, and reading `plugin.metadata.name` throws a TypeError.  The
helpers themselves (their resolved values) are still embedded as functions,
for use where the source does await them and as the spec-side comparison
point.
-/

namespace ClaudeFlow

/-- Insertion-ordered association-list lookup, mirroring JS `Map.get`. -/
def mapGet {α : Type} (m : List (String × α)) (k : String) : Option α :=
  (m.find? (fun p => p.1 = k)).map (fun p => p.2)

/-- JS `Map.set`: update the entry in place when the key is present
(preserving insertion order), otherwise append. -/
def mapSet {α : Type} : List (String × α) → String → α → List (String × α)
  | [], k, v => [(k, v)]
  | p :: ps, k, v => if p.1 = k then (k, v) :: ps else p :: mapSet ps k v

/-- JS `Map.delete`: remove the entry for the key, if present. -/
def mapDelete {α : Type} : List (String × α) → String → List (String × α)
  | [], _ => []
  | p :: ps, k => if p.1 = k then ps else p :: mapDelete ps k

/-- JS `m.get(k)?.mutate(...)`: apply `f` to the value at `k` when the key is
present; no-op otherwise (the optional-chaining pattern used by the source). -/
def mapModify {α : Type} : List (String × α) → String → (α → α) → List (String × α)
  | [], _, _ => []
  | p :: ps, k, f => if p.1 = k then (p.1, f p.2) :: mapModify ps k f else p :: mapModify ps k f

/-- JS `Set.add`: append if not already present. -/
def setAdd (s : List String) (x : String) : List String :=
  if x ∈ s then s else s ++ [x]

/-- JS `Set.delete`. -/
def setDelete (s : List String) (x : String) : List String :=
  s.filter (fun y => y ≠ x)

/-- JS `new Set(list)`: deduplicate, keeping the first occurrence's position. -/
def setOfList (l : List String) : List String :=
  l.foldl setAdd []

/-- JS `String.prototype.includes` on character lists. -/
def containsSub (needle : List Char) : List Char → Bool
  | [] => needle.isEmpty
  | c :: cs => needle.isPrefixOf (c :: cs) || containsSub needle cs

/-- JS `hay.includes(needle)`. -/
def strIncludes (hay needle : String) : Bool :=
  containsSub needle.toList hay.toList

-- ===========================================================================
-- Data model (config-adapter.ts, Types section)
-- ===========================================================================

/-- The closed category enumeration (`PluginCategory`). -/
inductive PluginCategory where
  | agent
  | task
  | tool
  | memory
  | provider
  | hook
  | worker
  | integration
  | utility
  deriving DecidableEq, Repr

/-- The string each category constructor denotes in the source union type. -/
def categoryName : PluginCategory → String
  | .agent => "agent"
  | .task => "task"
  | .tool => "tool"
  | .memory => "memory"
  | .provider => "provider"
  | .hook => "hook"
  | .worker => "worker"
  | .integration => "integration"
  | .utility => "utility"

/-- The closed capability enumeration (`PluginCapability`). -/
inductive PluginCapability where
  | network
  | filesystem
  | subprocess
  | memory
  | llm
  | mcp
  deriving DecidableEq, Repr

/-- Arbitrary JSON-like settings values are opaque to the Manager
(`unknown` in the source); modelled by an abstract value type. -/
abbrev SettingValue := Nat

/-- A JS object payload (`Record<string, unknown>`): ordered key/value list. -/
abbrev JsObj := List (String × SettingValue)

/-- JS object spread `{...a, ...b}`: `a`'s keys in order with values
overridden by `b`, then `b`'s keys absent from `a`, in order. -/
def objMerge (a b : JsObj) : JsObj :=
  (a.map (fun p => match mapGet b p.1 with
    | some v => (p.1, v)
    | none => p)) ++ b.filter (fun q => (mapGet a q.1).isNone)

/-- Resolved plugin descriptor: the part of `IPlugin.metadata` this core
reads (name and optional description).  A `PluginFactory` is resolved to
such a descriptor by `resolvePlugin`; factories are idempotent per spec §2,
so entries carry the resolved descriptor directly. -/
structure PluginMeta where
  name : String
  description : Option String := none
  deriving DecidableEq, Repr

/-- `resolvePlugin`: normalizes a descriptor-or-factory to a descriptor.
With factories resolved up front this is the identity. -/
def resolvePlugin (p : PluginMeta) : PluginMeta := p

/-- `PluginCollectionEntry`. -/
structure PluginCollectionEntry where
  plugin : PluginMeta
  defaultEnabled : Bool
  category : PluginCategory
  tags : Option (List String) := none
  requiredCapabilities : Option (List PluginCapability) := none
  description : Option String := none
  deriving DecidableEq, Repr

/-- `PluginCollection`. -/
structure PluginCollection where
  id : String
  name : String
  version : String
  description : Option String := none
  author : Option String := none
  license : Option String := none
  repository : Option String := none
  categories : Option (List PluginCategory) := none
  plugins : List PluginCollectionEntry
  deriving DecidableEq, Repr

/-- `Partial<PluginConfig>` as built by `registerPlugin`. -/
structure PluginConfig where
  enabled : Bool
  settings : JsObj
  deriving DecidableEq, Repr

/-- `CollectionManagerState`: the serializable snapshot consumed/produced by
`importState`/`exportState`. -/
structure CollectionManagerState where
  version : String
  collections : List String
  enabledPlugins : List (String × List String)
  disabledPlugins : List (String × List String)
  pluginSettings : List (String × JsObj)
  deriving DecidableEq, Repr

/-- Modelled from the spec: the external `PluginRegistry`
(`src/registry/plugin-registry.ts` is not part of the sources).  Per spec §6
it offers `register(descriptor, config)` (may fail), `unregister(name)` (may
fail when other plugins depend on `name`) and `getPlugin(name)` (existence
lookup).  `registered` maps registered names to the config they were
registered with; `dependedUpon` is the set of names whose unregistration the
registry refuses; `registerFailures` is the set of names whose registration
fails; `calls` is a trace of the successful register invocations, recording
descriptor name and config in call order. -/
structure PluginRegistry where
  registered : List (String × PluginConfig)
  dependedUpon : List String
  registerFailures : List String
  calls : List (String × PluginConfig)
  deriving DecidableEq, Repr

/-- The mutable fields of `PluginCollectionManager`. -/
structure ManagerState where
  collections : List (String × PluginCollection)
  enabledOverrides : List (String × List String)
  disabledOverrides : List (String × List String)
  pluginSettings : List (String × JsObj)
  deriving DecidableEq, Repr

/-- A Manager together with the external registry it talks to. -/
structure World where
  mgr : ManagerState
  reg : PluginRegistry
  deriving DecidableEq, Repr

-- ===========================================================================
-- Registry boundary (modelled from the spec, §6)
-- ===========================================================================

/-- Modelled from the spec: `registry.getPlugin(name)` used as an existence
lookup. -/
def regHas (w : World) (name : String) : Bool :=
  (mapGet w.reg.registered name).isSome

/-- Modelled from the spec: `registry.register(plugin, config)`; fails for
names in `registerFailures`, otherwise records the registration. -/
def regRegister (w : World) (p : PluginMeta) (cfg : PluginConfig) :
    World × Option String :=
  if p.name ∈ w.reg.registerFailures then
    (w, some ("Registration failed for " ++ p.name))
  else
    ({ w with reg := { w.reg with
        registered := mapSet w.reg.registered p.name cfg,
        calls := w.reg.calls ++ [(p.name, cfg)] } }, none)

/-- Modelled from the spec: `registry.unregister(name)`; fails for names the
registry reports as depended upon, otherwise removes the registration. -/
def regUnregister (w : World) (name : String) : World × Option String :=
  if name ∈ w.reg.dependedUpon then
    (w, some ("Plugin " ++ name ++ " is depended upon"))
  else
    ({ w with reg := { w.reg with
        registered := mapDelete w.reg.registered name } }, none)

-- ===========================================================================
-- Private helpers (config-adapter.ts lines 786-836)
-- ===========================================================================

/-- `findPluginEntry`: first entry whose resolved plugin name matches. -/
def findPluginEntry (collection : PluginCollection) (pluginName : String) :
    Option PluginCollectionEntry :=
  collection.plugins.find? (fun e => (resolvePlugin e.plugin).name = pluginName)

/-- `isPluginEnabled`: explicit enabled override wins, then explicit disabled
override, then the entry's default. -/
def isPluginEnabled (m : ManagerState) (collectionId : String)
    (entry : PluginCollectionEntry) : Bool :=
  let name := (resolvePlugin entry.plugin).name
  if ((mapGet m.enabledOverrides collectionId).getD []).contains name then
    true
  else if ((mapGet m.disabledOverrides collectionId).getD []).contains name then
    false
  else
    entry.defaultEnabled

/-- `registerPlugin`: look up stored settings for the plugin's name and
register it with `{ enabled: true, settings }`. -/
def registerPlugin (w : World) (entry : PluginCollectionEntry) :
    World × Option String :=
  let plugin := resolvePlugin entry.plugin
  let settings := mapGet w.mgr.pluginSettings plugin.name
  regRegister w plugin { enabled := true, settings := settings.getD [] }

-- ===========================================================================
-- JavaScript-semantics artifacts of the missing awaits
-- ===========================================================================

/-- The errors the Manager's operations can produce: an `Error` constructed
with a message, or the TypeError raised when `plugin.metadata.name` is read
after `resolvePlugin` was applied to the missing `.plugin` property of an
unawaited-Promise "entry". -/
inductive JsError where
  | error (msg : String)
  | typeError
  deriving DecidableEq, Repr

/-- The value of an unawaited call to the async `isPluginEnabled` when used
in a Boolean position (lines 300 and 765 of the source): a Promise object,
which is truthy regardless of the boolean it would resolve to. -/
def unawaitedTruthy : Bool := true

/-- What `isEnabled` actually returns: the boolean `false` (the synchronous
return at line 412) or the Promise object returned at line 417 — truthy as a
JS value, and eventually rejecting with a TypeError. -/
inductive IsEnabledValue where
  | bool (b : Bool)
  | rejectedPromise
  deriving DecidableEq, Repr

/-- JS truthiness of an `IsEnabledValue` (a Promise object is truthy). -/
def jsTruthy : IsEnabledValue → Bool
  | .bool b => b
  | .rejectedPromise => true

-- ===========================================================================
-- Public operations
-- ===========================================================================

/-- The registration loop inside `loadCollection`.  Line 300's
`if (this.isPluginEnabled(collection.id, entry))` calls the async helper
without `await`, so the condition is a truthy Promise and EVERY entry is
registered, the effectively-disabled ones included; a registration failure
aborts the loop and propagates. -/
def loadLoop (w : World) (cid : String) :
    List PluginCollectionEntry → World × Except JsError Unit
  | [] => (w, .ok ())
  | e :: es =>
    if unawaitedTruthy then
      match registerPlugin w e with
      | (w1, none) => loadLoop w1 cid es
      | (w1, some err) => (w1, .error (.error err))
    else
      loadLoop w cid es

/-- `loadCollection` (lines 289-304). -/
def loadCollection (w : World) (c : PluginCollection) : World × Except JsError Unit :=
  if (mapGet w.mgr.collections c.id).isSome then
    (w, .error (.error ("Collection " ++ c.id ++ " already loaded")))
  else
    let mgr1 : ManagerState := { w.mgr with
      collections := mapSet w.mgr.collections c.id c,
      enabledOverrides := mapSet w.mgr.enabledOverrides c.id [],
      disabledOverrides := mapSet w.mgr.disabledOverrides c.id [] }
    loadLoop { w with mgr := mgr1 } c.id c.plugins

/-- The cleanup loop inside `unloadCollection`: unregister every entry known
to the registry, ignoring individual unregister failures. -/
def unloadLoop (w : World) : List PluginCollectionEntry → World
  | [] => w
  | e :: es =>
    let name := (resolvePlugin e.plugin).name
    if regHas w name then
      unloadLoop (regUnregister w name).1 es
    else
      unloadLoop w es

/-- `unloadCollection` (lines 309-332): all of its awaits are genuine, so it
behaves as intended. -/
def unloadCollection (w : World) (collectionId : String) : World × Except JsError Unit :=
  match mapGet w.mgr.collections collectionId with
  | none => (w, .error (.error ("Collection " ++ collectionId ++ " not found")))
  | some c =>
    let w1 := unloadLoop w c.plugins
    ({ w1 with mgr := { w1.mgr with
        collections := mapDelete w1.mgr.collections collectionId,
        enabledOverrides := mapDelete w1.mgr.enabledOverrides collectionId,
        disabledOverrides := mapDelete w1.mgr.disabledOverrides collectionId } },
      .ok ())

/-- `enablePlugin` (lines 355-375).  Line 361 calls `findPluginEntry`
without `await`, so `entry` is a truthy Promise: the not-found guard at line
362 is dead and the override-set mutation at lines 367-368 happens for EVERY
plugin name; then `resolvePlugin(entry.plugin)` resolves to `undefined` and
line 372's `plugin.metadata.name` throws a TypeError before the registry is
ever consulted, so the registration path is unreachable. -/
def enablePlugin (w : World) (collectionId pluginName : String) :
    World × Except JsError Unit :=
  match mapGet w.mgr.collections collectionId with
  | none => (w, .error (.error ("Collection " ++ collectionId ++ " not found")))
  | some _ =>
    let mgr1 : ManagerState := { w.mgr with
      disabledOverrides := mapModify w.mgr.disabledOverrides collectionId
        (fun s => setDelete s pluginName),
      enabledOverrides := mapModify w.mgr.enabledOverrides collectionId
        (fun s => setAdd s pluginName) }
    ({ w with mgr := mgr1 }, .error .typeError)

/-- `disablePlugin` (lines 380-405).  Same dead guard as `enablePlugin`: the
sets are mutated at lines 392-393 for every name, and line 397's
`plugin.metadata.name` throws a TypeError while evaluating the `if`
condition — before `getPlugin`, the `try` block or `unregister` are reached,
so the "Cannot disable ...: other plugins may depend on it" error is
unreachable and the registry is never touched. -/
def disablePlugin (w : World) (collectionId pluginName : String) :
    World × Except JsError Unit :=
  match mapGet w.mgr.collections collectionId with
  | none => (w, .error (.error ("Collection " ++ collectionId ++ " not found")))
  | some _ =>
    let mgr1 : ManagerState := { w.mgr with
      enabledOverrides := mapModify w.mgr.enabledOverrides collectionId
        (fun s => setDelete s pluginName),
      disabledOverrides := mapModify w.mgr.disabledOverrides collectionId
        (fun s => setAdd s pluginName) }
    ({ w with mgr := mgr1 }, .error .typeError)

/-- `isEnabled` (lines 410-418).  The unknown-collection check at line 412
is synchronous and returns `false`.  For a loaded collection, line 414 calls
the async `findPluginEntry` without `await`: `entry` is a Promise, the
`if (!entry) return false` guard at line 415 is dead, and line 417 returns
the Promise produced by `isPluginEnabled(collectionId, entry)`, which
rejects with a TypeError when it reads `.metadata` of `undefined` — the
caller receives a truthy Promise, never the effective boolean. -/
def isEnabled (m : ManagerState) (collectionId pluginName : String) :
    IsEnabledValue :=
  match mapGet m.collections collectionId with
  | none => .bool false
  | some _ => .rejectedPromise

/-- `togglePlugin` (lines 423-431): branches on the JS truthiness of
`isEnabled`'s result — `false` for an unloaded collection (taking the enable
branch, which then throws "not found"), a truthy Promise otherwise (always
taking the disable branch, which always throws a TypeError); it can never
return a boolean. -/
def togglePlugin (w : World) (collectionId pluginName : String) :
    World × Except JsError Bool :=
  if jsTruthy (isEnabled w.mgr collectionId pluginName) then
    match disablePlugin w collectionId pluginName with
    | (w1, .ok _) => (w1, .ok false)
    | (w1, .error e) => (w1, .error e)
  else
    match enablePlugin w collectionId pluginName with
    | (w1, .ok _) => (w1, .ok true)
    | (w1, .error e) => (w1, .error e)

-- ===========================================================================
-- Bulk operations (lines 440-508)
-- ===========================================================================

/-- The loop inside `enableAll`: enable each entry in declared order,
propagating the first failure. -/
def enableAllLoop (w : World) (cid : String) :
    List PluginCollectionEntry → World × Except JsError Unit
  | [] => (w, .ok ())
  | e :: es =>
    match enablePlugin w cid (resolvePlugin e.plugin).name with
    | (w1, .ok _) => enableAllLoop w1 cid es
    | (w1, .error err) => (w1, .error err)

/-- `enableAll` (lines 440-450). -/
def enableAll (w : World) (collectionId : String) : World × Except JsError Unit :=
  match mapGet w.mgr.collections collectionId with
  | none => (w, .error (.error ("Collection " ++ collectionId ++ " not found")))
  | some c => enableAllLoop w collectionId c.plugins

/-- The loop inside `disableAll`/`disableCategory`: disable each entry,
swallowing individual failures (their state mutations persist). -/
def disableAllLoop (w : World) (cid : String) :
    List PluginCollectionEntry → World
  | [] => w
  | e :: es =>
    disableAllLoop (disablePlugin w cid (resolvePlugin e.plugin).name).1 cid es

/-- `disableAll` (lines 455-471): entries processed in reverse declared
order, continuing past failures. -/
def disableAll (w : World) (collectionId : String) : World × Except JsError Unit :=
  match mapGet w.mgr.collections collectionId with
  | none => (w, .error (.error ("Collection " ++ collectionId ++ " not found")))
  | some c => (disableAllLoop w collectionId c.plugins.reverse, .ok ())

/-- The loop inside `enableCategory`: enable matching entries, swallowing
individual failures. -/
def enableCategoryLoop (w : World) (cid : String) (cat : PluginCategory) :
    List PluginCollectionEntry → World
  | [] => w
  | e :: es =>
    if e.category = cat then
      enableCategoryLoop (enablePlugin w cid (resolvePlugin e.plugin).name).1 cid cat es
    else
      enableCategoryLoop w cid cat es

/-- `enableCategory` (lines 476-489): across all loaded collections. -/
def enableCategory (w : World) (cat : PluginCategory) : World :=
  w.mgr.collections.foldl (fun acc p => enableCategoryLoop acc p.1 cat p.2.plugins) w

/-- The loop inside `disableCategory`. -/
def disableCategoryLoop (w : World) (cid : String) (cat : PluginCategory) :
    List PluginCollectionEntry → World
  | [] => w
  | e :: es =>
    if e.category = cat then
      disableCategoryLoop (disablePlugin w cid (resolvePlugin e.plugin).name).1 cid cat es
    else
      disableCategoryLoop w cid cat es

/-- `disableCategory` (lines 494-508): reverse order within each collection,
across all loaded collections. -/
def disableCategory (w : World) (cat : PluginCategory) : World :=
  w.mgr.collections.foldl
    (fun acc p => disableCategoryLoop acc p.1 cat p.2.plugins.reverse) w

-- ===========================================================================
-- Settings (lines 641-658)
-- ===========================================================================

/-- `getPluginSettings`: stored settings or the empty object. -/
def getPluginSettings (m : ManagerState) (pluginName : String) : JsObj :=
  (mapGet m.pluginSettings pluginName).getD []

/-- `setPluginSettings`: replace. -/
def setPluginSettings (m : ManagerState) (pluginName : String) (settings : JsObj) :
    ManagerState :=
  { m with pluginSettings := mapSet m.pluginSettings pluginName settings }

/-- `updatePluginSettings`: shallow-merge into existing (or empty) settings. -/
def updatePluginSettings (m : ManagerState) (pluginName : String) (settings : JsObj) :
    ManagerState :=
  let existing := (mapGet m.pluginSettings pluginName).getD []
  { m with pluginSettings := mapSet m.pluginSettings pluginName (objMerge existing settings) }

-- ===========================================================================
-- State persistence (lines 667-715)
-- ===========================================================================

/-- `exportState` (lines 667-695): only non-empty override sets appear. -/
def exportState (m : ManagerState) : CollectionManagerState :=
  { version := "1.0.0",
    collections := m.collections.map (fun p => p.1),
    enabledPlugins := m.enabledOverrides.filter (fun p => !p.2.isEmpty),
    disabledPlugins := m.disabledOverrides.filter (fun p => !p.2.isEmpty),
    pluginSettings := m.pluginSettings }

/-- The loop restoring one override map in `importState`: for each input
pair, replace the override set for that collection id with a fresh set built
from the listed names. -/
def importOverrides (ov : List (String × List String))
    (input : List (String × List String)) : List (String × List String) :=
  input.foldl (fun acc p => mapSet acc p.1 (setOfList p.2)) ov

/-- `importState` (lines 700-715): replace the override set of every
collection id present in the input and merge in all settings entries;
collections themselves are not (re)loaded. -/
def importState (m : ManagerState) (state : CollectionManagerState) : ManagerState :=
  { m with
    enabledOverrides := importOverrides m.enabledOverrides state.enabledPlugins,
    disabledOverrides := importOverrides m.disabledOverrides state.disabledPlugins,
    pluginSettings := state.pluginSettings.foldl
      (fun acc p => mapSet acc p.1 p.2) m.pluginSettings }

-- ===========================================================================
-- Statistics (lines 743-780)
-- ===========================================================================

/-- The `byCategory` record of `CollectionStats`: one field per category of
the closed enumeration, so every category is present even when zero. -/
structure ByCategory where
  agent : Nat
  task : Nat
  tool : Nat
  memory : Nat
  provider : Nat
  hook : Nat
  worker : Nat
  integration : Nat
  utility : Nat
  deriving DecidableEq, Repr

/-- The all-zero histogram the source initializes. -/
def zeroByCategory : ByCategory :=
  { agent := 0, task := 0, tool := 0, memory := 0, provider := 0,
    hook := 0, worker := 0, integration := 0, utility := 0 }

/-- Read the histogram field for a category. -/
def catCount (h : ByCategory) : PluginCategory → Nat
  | .agent => h.agent
  | .task => h.task
  | .tool => h.tool
  | .memory => h.memory
  | .provider => h.provider
  | .hook => h.hook
  | .worker => h.worker
  | .integration => h.integration
  | .utility => h.utility

/-- `byCategory[entry.category]++`. -/
def bumpCategory (h : ByCategory) : PluginCategory → ByCategory
  | .agent => { h with agent := h.agent + 1 }
  | .task => { h with task := h.task + 1 }
  | .tool => { h with tool := h.tool + 1 }
  | .memory => { h with memory := h.memory + 1 }
  | .provider => { h with provider := h.provider + 1 }
  | .hook => { h with hook := h.hook + 1 }
  | .worker => { h with worker := h.worker + 1 }
  | .integration => { h with integration := h.integration + 1 }
  | .utility => { h with utility := h.utility + 1 }

/-- `CollectionStats`. -/
structure CollectionStats where
  totalCollections : Nat
  totalPlugins : Nat
  enabledPlugins : Nat
  disabledPlugins : Nat
  byCategory : ByCategory
  deriving DecidableEq, Repr

/-- Every loaded collection's entries paired with their collection id, in
collection iteration order then entry declaration order (the discovery order
of the source's nested `for` loops). -/
def allEntries (m : ManagerState) : List (String × PluginCollectionEntry) :=
  m.collections.flatMap (fun p => p.2.plugins.map (fun e => (p.1, e)))

/-- One iteration of the counting loop in `getStats`.  Line 765's
`if (this.isPluginEnabled(collectionId, entry))` is an unawaited async call,
so the condition is a truthy Promise and the enabled branch is taken for
every entry regardless of its effective state. -/
def statsStep (m : ManagerState) (acc : CollectionStats)
    (x : String × PluginCollectionEntry) : CollectionStats :=
  let acc1 := { acc with
    totalPlugins := acc.totalPlugins + 1,
    byCategory := bumpCategory acc.byCategory x.2.category }
  if unawaitedTruthy then
    { acc1 with enabledPlugins := acc1.enabledPlugins + 1 }
  else
    { acc1 with disabledPlugins := acc1.disabledPlugins + 1 }

/-- `getStats` (lines 743-780). -/
def getStats (m : ManagerState) : CollectionStats :=
  (allEntries m).foldl (statsStep m)
    { totalCollections := m.collections.length,
      totalPlugins := 0, enabledPlugins := 0, disabledPlugins := 0,
      byCategory := zeroByCategory }

-- ===========================================================================
-- Search (lines 575-632)
-- ===========================================================================

/-- One result row of `searchPlugins`. -/
structure SearchResult where
  collectionId : String
  entry : PluginCollectionEntry
  pluginName : String
  enabled : Bool
  score : Nat
  deriving DecidableEq, Repr

/-- The sequential score accumulation of the search loop: exact name match
100 else substring name match 50; description substring +25; tag substring
+30; category substring +20.  `queryLower` is the already-lowercased query. -/
def entryScore (entry : PluginCollectionEntry) (queryLower : String) : Nat :=
  let plugin := resolvePlugin entry.plugin
  let name := plugin.name.toLower
  let description := ((entry.description.getD (plugin.description.getD "")).toLower)
  let s1 : Nat := if name = queryLower then 100
    else if strIncludes name queryLower then 50 else 0
  let s2 : Nat := s1 + (if strIncludes description queryLower then 25 else 0)
  let s3 : Nat := s2 +
    (if (entry.tags.getD []).any (fun t => strIncludes t.toLower queryLower) then 30 else 0)
  s3 + (if strIncludes (categoryName entry.category).toLower queryLower then 20 else 0)

/-- The unsorted result accumulation of `searchPlugins`: discovery order,
keeping only rows with positive score. -/
def searchCandidates (m : ManagerState) (queryLower : String) : List SearchResult :=
  (allEntries m).filterMap (fun x =>
    let score := entryScore x.2 queryLower
    if score > 0 then
      some { collectionId := x.1, entry := x.2,
             pluginName := (resolvePlugin x.2.plugin).name,
             enabled := isPluginEnabled m x.1 x.2, score := score }
    else
      none)

/-- Stable insertion into a descending-by-score list: the inserted element
(which precedes `l` in the original order) goes before every element of not
strictly greater score, exactly as JS's stable `sort((a,b) => b.score - a.score)`
orders it. -/
def insertDesc (x : SearchResult) : List SearchResult → List SearchResult
  | [] => [x]
  | y :: ys => if y.score ≤ x.score then x :: y :: ys else y :: insertDesc x ys

/-- Stable sort by descending score (JS `Array.prototype.sort` is stable). -/
def sortDesc (l : List SearchResult) : List SearchResult :=
  l.foldr insertDesc []

/-- `searchPlugins` (lines 575-632). -/
def searchPlugins (m : ManagerState) (query : String) : List SearchResult :=
  sortDesc (searchCandidates m query.toLower)

-- ===========================================================================
-- Spec-side definitions (for refinement statements; written from the words
-- of spec.md, to be compared against the source-derived definitions above)
-- ===========================================================================

/-- Spec §3: "Effective enabled state = explicit-enabled, so true; else
explicit-disabled, so false; else entry's default-enabled."  Written from the
spec's words, for comparison with `isPluginEnabled`/`isEnabled`. -/
def effectiveSpec (m : ManagerState) (collectionId : String)
    (e : PluginCollectionEntry) : Bool :=
  if e.plugin.name ∈ (mapGet m.enabledOverrides collectionId).getD [] then true
  else if e.plugin.name ∈ (mapGet m.disabledOverrides collectionId).getD [] then false
  else e.defaultEnabled

/-- Spec §4.4: the additive search score, written from the spec's words:
exact name match 100, substring name match 50, description substring 25,
tag substring 30, category substring 20, case-insensitively. -/
def searchScoreSpec (e : PluginCollectionEntry) (query : String) : Nat :=
  let q := query.toLower
  let name := e.plugin.name.toLower
  let description := (e.description.getD (e.plugin.description.getD "")).toLower
  (if name = q then 100 else if strIncludes name q then 50 else 0)
    + (if strIncludes description q then 25 else 0)
    + (if (e.tags.getD []).any (fun t => strIncludes t.toLower q) then 30 else 0)
    + (if strIncludes (categoryName e.category).toLower q then 20 else 0)

/-- Spec §4.4: the result rows before ranking, in discovery order, excluding
rows whose score is zero. -/
def searchCandidatesSpec (m : ManagerState) (query : String) : List SearchResult :=
  (allEntries m).filterMap (fun x =>
    let s := searchScoreSpec x.2 query
    if s ≠ 0 then
      some { collectionId := x.1, entry := x.2,
             pluginName := x.2.plugin.name,
             enabled := isPluginEnabled m x.1 x.2, score := s }
    else
      none)

-- ===========================================================================
-- Lemma toolkit: association lists and sets
-- ===========================================================================

theorem mapGet_nil {α : Type} (k : String) : mapGet ([] : List (String × α)) k = none := rfl

theorem mapGet_cons {α : Type} (p : String × α) (ps : List (String × α)) (k : String) :
    mapGet (p :: ps) k = if p.1 = k then some p.2 else mapGet ps k := by
  simp only [mapGet, List.find?_cons]
  by_cases h : p.1 = k <;> simp [h]

theorem mapGet_mapSet {α : Type} (m : List (String × α)) (k k' : String) (v : α) :
    mapGet (mapSet m k v) k' = if k' = k then some v else mapGet m k' := by
  induction m with
  | nil =>
    show mapGet [(k, v)] k' = _
    by_cases h : k' = k
    · simp_all [mapGet_cons]
    · simp_all [mapGet_cons, mapGet_nil]
      exact fun h2 => h h2.symm
  | cons p ps ih =>
    show mapGet (if p.1 = k then (k, v) :: ps else p :: mapSet ps k v) k' = _
    by_cases hpk : p.1 = k <;> by_cases h : k' = k <;> by_cases h2 : p.1 = k' <;>
      simp_all [mapGet_cons]

theorem mapGet_mapModify {α : Type} (m : List (String × α)) (k k' : String) (f : α → α) :
    mapGet (mapModify m k f) k' =
      if k' = k then (mapGet m k).map f else mapGet m k' := by
  induction m with
  | nil => by_cases h : k' = k <;> simp [mapModify, mapGet_nil, h]
  | cons p ps ih =>
    show mapGet (if p.1 = k then (p.1, f p.2) :: mapModify ps k f
      else p :: mapModify ps k f) k' = _
    by_cases hpk : p.1 = k <;> by_cases h : k' = k <;> by_cases h2 : p.1 = k' <;>
      simp_all [mapGet_cons]

theorem mapGet_mapDelete_ne {α : Type} (m : List (String × α)) (k k' : String)
    (h : k' ≠ k) : mapGet (mapDelete m k) k' = mapGet m k' := by
  induction m with
  | nil => rfl
  | cons p ps ih =>
    show mapGet (if p.1 = k then ps else p :: mapDelete ps k) k' = _
    by_cases hpk : p.1 = k <;> by_cases h2 : p.1 = k' <;> simp_all [mapGet_cons]

theorem mapGet_eq_none_iff {α : Type} (m : List (String × α)) (k : String) :
    mapGet m k = none ↔ k ∉ m.map Prod.fst := by
  induction m with
  | nil => simp [mapGet_nil]
  | cons p ps ih =>
    rw [mapGet_cons]
    by_cases h : p.1 = k <;> simp_all [eq_comm]

theorem mem_of_mapGet_eq_some {α : Type} {m : List (String × α)} {k : String} {v : α}
    (h : mapGet m k = some v) : k ∈ m.map Prod.fst := by
  by_contra hk
  rw [← mapGet_eq_none_iff] at hk
  simp [hk] at h

theorem mapGet_isSome_iff {α : Type} (m : List (String × α)) (k : String) :
    (mapGet m k).isSome ↔ k ∈ m.map Prod.fst := by
  constructor
  · intro h
    cases hg : mapGet m k with
    | none => rw [hg] at h; simp at h
    | some v => exact mem_of_mapGet_eq_some hg
  · intro h
    cases hg : mapGet m k with
    | none => exact absurd h ((mapGet_eq_none_iff m k).mp hg)
    | some v => simp [hg]

theorem mapKeys_mapModify {α : Type} (m : List (String × α)) (k : String) (f : α → α) :
    (mapModify m k f).map Prod.fst = m.map Prod.fst := by
  induction m with
  | nil => rfl
  | cons p ps ih =>
    show (if p.1 = k then (p.1, f p.2) :: mapModify ps k f
      else p :: mapModify ps k f).map Prod.fst = _
    by_cases h : p.1 = k <;> simp_all

theorem mem_mapKeys_mapSet {α : Type} (m : List (String × α)) (k k' : String) (v : α) :
    k' ∈ (mapSet m k v).map Prod.fst ↔ k' = k ∨ k' ∈ m.map Prod.fst := by
  induction m with
  | nil => simp [mapSet]
  | cons p ps ih =>
    show k' ∈ (if p.1 = k then (k, v) :: ps else p :: mapSet ps k v).map Prod.fst ↔ _
    by_cases h : p.1 = k <;> simp_all <;> tauto

theorem mapKeys_mapSet_nodup {α : Type} (m : List (String × α)) (k : String) (v : α)
    (h : (m.map Prod.fst).Nodup) : ((mapSet m k v).map Prod.fst).Nodup := by
  induction m with
  | nil => simp [mapSet]
  | cons p ps ih =>
    show (if p.1 = k then (k, v) :: ps else p :: mapSet ps k v).map Prod.fst |>.Nodup
    simp only [List.map_cons, List.nodup_cons] at h
    by_cases hpk : p.1 = k
    · subst hpk; simpa using h
    · simp only [if_neg hpk, List.map_cons, List.nodup_cons]
      refine ⟨?_, ih h.2⟩
      rw [mem_mapKeys_mapSet]
      rintro (h1 | h1)
      · exact hpk h1
      · exact h.1 h1

theorem mapKeys_mapDelete_sublist {α : Type} (m : List (String × α)) (k : String) :
    ((mapDelete m k).map Prod.fst).Sublist (m.map Prod.fst) := by
  induction m with
  | nil => simp [mapDelete]
  | cons p ps ih =>
    show (if p.1 = k then ps else p :: mapDelete ps k).map Prod.fst |>.Sublist _
    by_cases h : p.1 = k
    · rw [if_pos h]
      exact (List.sublist_cons_self _ _)
    · rw [if_neg h]
      simpa using ih.cons₂ p.1

theorem mapKeys_mapDelete_nodup {α : Type} (m : List (String × α)) (k : String)
    (h : (m.map Prod.fst).Nodup) : ((mapDelete m k).map Prod.fst).Nodup :=
  h.sublist (mapKeys_mapDelete_sublist m k)

theorem mapGet_mapDelete_self {α : Type} (m : List (String × α)) (k : String)
    (h : (m.map Prod.fst).Nodup) : mapGet (mapDelete m k) k = none := by
  induction m with
  | nil => rfl
  | cons p ps ih =>
    show mapGet (if p.1 = k then ps else p :: mapDelete ps k) k = none
    simp only [List.map_cons, List.nodup_cons] at h
    by_cases hpk : p.1 = k
    · rw [if_pos hpk, mapGet_eq_none_iff]
      intro hk
      exact h.1 (hpk ▸ hk)
    · rw [if_neg hpk, mapGet_cons, if_neg hpk]
      exact ih h.2

theorem mem_setAdd (s : List String) (x y : String) :
    y ∈ setAdd s x ↔ y = x ∨ y ∈ s := by
  unfold setAdd
  by_cases h : x ∈ s
  · simp only [if_pos h]
    constructor
    · exact Or.inr
    · rintro (rfl | h2)
      · exact h
      · exact h2
  · simp [if_neg h, or_comm]

theorem mem_setDelete (s : List String) (x y : String) :
    y ∈ setDelete s x ↔ y ∈ s ∧ y ≠ x := by
  simp [setDelete]

theorem mem_foldl_setAdd (l acc : List String) (x : String) :
    x ∈ l.foldl setAdd acc ↔ x ∈ acc ∨ x ∈ l := by
  induction l generalizing acc with
  | nil => simp
  | cons a as ih =>
    simp only [List.foldl_cons, ih, mem_setAdd, List.mem_cons]
    tauto

theorem mem_setOfList (l : List String) (x : String) :
    x ∈ setOfList l ↔ x ∈ l := by
  simp [setOfList, mem_foldl_setAdd]

theorem mapGet_importOverrides (ov input : List (String × List String)) (cid : String)
    (hnd : (input.map Prod.fst).Nodup) :
    mapGet (importOverrides ov input) cid =
      match mapGet input cid with
      | some l => some (setOfList l)
      | none => mapGet ov cid := by
  induction input generalizing ov with
  | nil => rfl
  | cons p ps ih =>
    simp only [List.map_cons, List.nodup_cons] at hnd
    show mapGet (importOverrides (mapSet ov p.1 (setOfList p.2)) ps) cid = _
    rw [ih _ hnd.2, mapGet_cons]
    by_cases h : p.1 = cid
    · subst h
      have hn : mapGet ps p.1 = none := by
        rw [mapGet_eq_none_iff]; exact hnd.1
      simp [hn, mapGet_mapSet]
    · have h2 : cid ≠ p.1 := fun hh => h hh.symm
      cases hg : mapGet ps cid with
      | none => simp [hg, h, mapGet_mapSet, h2]
      | some l => simp [hg, h]

-- ===========================================================================
-- Lemma toolkit: operation characterizations
-- ===========================================================================

theorem regRegister_mgr (w : World) (p : PluginMeta) (cfg : PluginConfig) :
    (regRegister w p cfg).1.mgr = w.mgr := by
  unfold regRegister
  by_cases h : p.name ∈ w.reg.registerFailures <;> simp [h]

theorem regUnregister_mgr (w : World) (n : String) :
    (regUnregister w n).1.mgr = w.mgr := by
  unfold regUnregister
  by_cases h : n ∈ w.reg.dependedUpon <;> simp [h]

theorem regRegister_fail_lists (w : World) (p : PluginMeta) (cfg : PluginConfig) :
    (regRegister w p cfg).1.reg.dependedUpon = w.reg.dependedUpon ∧
    (regRegister w p cfg).1.reg.registerFailures = w.reg.registerFailures := by
  unfold regRegister
  by_cases h : p.name ∈ w.reg.registerFailures <;> simp [h]

theorem regUnregister_fail_lists (w : World) (n : String) :
    (regUnregister w n).1.reg.dependedUpon = w.reg.dependedUpon ∧
    (regUnregister w n).1.reg.registerFailures = w.reg.registerFailures := by
  unfold regUnregister
  by_cases h : n ∈ w.reg.dependedUpon <;> simp [h]

theorem registerPlugin_mgr (w : World) (e : PluginCollectionEntry) :
    (registerPlugin w e).1.mgr = w.mgr :=
  regRegister_mgr w _ _

/-- The config `registerPlugin` hands to the registry for a plugin name. -/
def registrationConfig (m : ManagerState) (name : String) : PluginConfig :=
  { enabled := true, settings := (mapGet m.pluginSettings name).getD [] }

theorem registerPlugin_success (w : World) (e : PluginCollectionEntry)
    (h : e.plugin.name ∉ w.reg.registerFailures) :
    registerPlugin w e =
      ({ w with reg := { w.reg with
          registered := mapSet w.reg.registered e.plugin.name
            (registrationConfig w.mgr e.plugin.name),
          calls := w.reg.calls ++
            [(e.plugin.name, registrationConfig w.mgr e.plugin.name)] } }, none) := by
  simp [registerPlugin, regRegister, resolvePlugin, registrationConfig, h]

theorem findPluginEntry_name {c : PluginCollection} {n : String}
    {e : PluginCollectionEntry} (h : findPluginEntry c n = some e) :
    e.plugin.name = n := by
  have := List.find?_some h
  simpa [resolvePlugin] using this

theorem findPluginEntry_mem {c : PluginCollection} {n : String}
    {e : PluginCollectionEntry} (h : findPluginEntry c n = some e) :
    e ∈ c.plugins :=
  List.mem_of_find?_eq_some h

theorem find_entry_of_mem (l : List PluginCollectionEntry)
    (e : PluginCollectionEntry) (hmem : e ∈ l)
    (hnd : (l.map (fun x => x.plugin.name)).Nodup) :
    l.find? (fun x => (resolvePlugin x.plugin).name = e.plugin.name) = some e := by
  induction l with
  | nil => simp at hmem
  | cons a as ih =>
    simp only [List.map_cons, List.nodup_cons] at hnd
    rcases List.mem_cons.mp hmem with rfl | hmem2
    · simp [resolvePlugin]
    · have hne : (resolvePlugin a.plugin).name ≠ e.plugin.name := by
        intro hh
        exact hnd.1 (by
          simpa [resolvePlugin] using (List.mem_map.mpr ⟨e, hmem2, hh.symm⟩))
      rw [List.find?_cons]
      have hd : decide ((resolvePlugin a.plugin).name = e.plugin.name) = false := by
        simp [hne]
      rw [hd]
      exact ih hmem2 hnd.2

/-- With duplicate-free resolved names, `findPluginEntry` at an entry's own
name returns that entry. -/
theorem findPluginEntry_of_mem {c : PluginCollection} {e : PluginCollectionEntry}
    (hmem : e ∈ c.plugins)
    (hnd : (c.plugins.map (fun x => x.plugin.name)).Nodup) :
    findPluginEntry c e.plugin.name = some e :=
  find_entry_of_mem c.plugins e hmem hnd

theorem isPluginEnabled_eq_effectiveSpec (m : ManagerState) (cid : String)
    (e : PluginCollectionEntry) :
    isPluginEnabled m cid e = effectiveSpec m cid e := by
  unfold isPluginEnabled effectiveSpec resolvePlugin
  by_cases h1 : e.plugin.name ∈ (mapGet m.enabledOverrides cid).getD []
  · simp [h1, List.elem_iff]
  · by_cases h2 : e.plugin.name ∈ (mapGet m.disabledOverrides cid).getD [] <;>
      simp [h1, h2, List.elem_iff]

theorem objMerge_nil (s : JsObj) : objMerge [] s = s := by
  simp [objMerge, mapGet]

-- ===========================================================================
-- Claim theorems (first group)
-- ===========================================================================

-- Concrete fixtures shared by the claim theorems below.

/-- Example entry: a default-enabled utility plugin named `logger`. -/
def loggerEntry : PluginCollectionEntry :=
  { plugin := { name := "logger" }, defaultEnabled := true, category := .utility }

/-- Example entry: a default-disabled utility plugin named `tracer`. -/
def tracerEntry : PluginCollectionEntry :=
  { plugin := { name := "tracer" }, defaultEnabled := false, category := .utility }

/-- Example collection with the two entries above. -/
def coreCollection : PluginCollection :=
  { id := "core", name := "Core", version := "1.0.0",
    plugins := [loggerEntry, tracerEntry] }

/-- A freshly constructed manager: all maps empty. -/
def emptyMgr : ManagerState :=
  { collections := [], enabledOverrides := [], disabledOverrides := [],
    pluginSettings := [] }

/-- A manager with `coreCollection` loaded and `logger` explicitly disabled. -/
def coreMgr : ManagerState :=
  { collections := [("core", coreCollection)],
    enabledOverrides := [("core", [])],
    disabledOverrides := [("core", ["logger"])],
    pluginSettings := [] }

/-- An idle registry with no failures configured. -/
def emptyReg : PluginRegistry :=
  { registered := [], dependedUpon := [], registerFailures := [], calls := [] }

/-- C1 (code bug): for a loaded collection, `isEnabled` never returns the
entry's effective enabled state — line 414's unawaited `findPluginEntry`
makes it return a truthy, internally rejecting Promise, which no boolean
equals.  At the failing input, the effective state of `logger` per spec §3
is `false` (it is in the explicit-disabled set), but the program returns the
Promise object; the spec-intended value is computed by the (awaited) helper
`isPluginEnabled`, which does match `effectiveSpec`
(`isPluginEnabled_eq_effectiveSpec`). -/
theorem C1_isEnabled_never_effective :
    isEnabled coreMgr "core" loggerEntry.plugin.name =
      IsEnabledValue.rejectedPromise ∧
    effectiveSpec coreMgr "core" loggerEntry = false ∧
    ∀ b : Bool, IsEnabledValue.rejectedPromise ≠ IsEnabledValue.bool b := by
  refine ⟨rfl, by decide, ?_⟩
  intro b h
  cases h

/-- C6 (code bug): the unknown-collection branch does return false, but for
a loaded collection and a name matching no entry, the dead guard at line 415
(`entry` is an unawaited, truthy Promise) means `isEnabled` returns a
rejecting Promise — a truthy value, not `false`, and the internal rejection
contradicts "never throws". -/
theorem C6_isEnabled_unknown_name_not_false :
    isEnabled emptyMgr "core" "logger" = IsEnabledValue.bool false ∧
    findPluginEntry coreCollection "nope" = none ∧
    isEnabled coreMgr "core" "nope" = IsEnabledValue.rejectedPromise ∧
    jsTruthy (isEnabled coreMgr "core" "nope") = true := by
  refine ⟨rfl, by decide, rfl, rfl⟩

/-- C10: for a plugin name with no stored settings, `getPluginSettings`
returns the empty object (never `undefined`), and `updatePluginSettings` on
such a name behaves exactly like `setPluginSettings`. -/
theorem C10_settings_default_empty (m : ManagerState) (n : String) (s : JsObj)
    (h : mapGet m.pluginSettings n = none) :
    getPluginSettings m n = [] ∧
    updatePluginSettings m n s = setPluginSettings m n s := by
  refine ⟨by simp [getPluginSettings, h], ?_⟩
  simp [updatePluginSettings, setPluginSettings, h, objMerge_nil]

/-- A manager holding settings for one plugin name, used as a witness. -/
def settingsMgr : ManagerState :=
  { collections := [], enabledOverrides := [], disabledOverrides := [],
    pluginSettings := [("other", [("x", 1)])] }

/-- Witness for C10 on a manager with settings stored for a different name. -/
theorem C10_settings_default_empty_witness :
    getPluginSettings settingsMgr "logger" = [] ∧
    updatePluginSettings settingsMgr "logger" [("lvl", 2)] =
      setPluginSettings settingsMgr "logger" [("lvl", 2)] :=
  C10_settings_default_empty settingsMgr "logger" [("lvl", 2)] (by decide)

-- ===========================================================================
-- C5: disablePlugin with a depended-upon plugin
-- ===========================================================================

/-- A world where `coreCollection` is loaded with no overrides, `logger` is
registered, and the registry reports `logger` as depended upon. -/
def depWorld : World :=
  { mgr := { collections := [("core", coreCollection)],
             enabledOverrides := [("core", [])],
             disabledOverrides := [("core", [])],
             pluginSettings := [] },
    reg := { registered := [("logger", { enabled := true, settings := [] })],
             dependedUpon := ["logger"], registerFailures := [], calls := [] } }

/-- C5 (code bug): at the failing input `disablePlugin` commits the
override-set mutation and then throws — but not the claimed "depended upon"
error: line 397 reads `plugin.metadata.name` from `undefined` (the entry is
an unawaited Promise) and throws a TypeError before `getPlugin`, the `try`
block or `unregister` are reached.  So the plugin stays registered while
being recorded as explicitly disabled, the registry is never even asked to
unregister, and the mutation is left inconsistent with registry membership,
contrary to the claim's "not committed". -/
theorem C5_disable_commits_override_despite_dependents :
    (disablePlugin depWorld "core" "logger").2 = Except.error JsError.typeError ∧
    "logger" ∈
      (mapGet (disablePlugin depWorld "core" "logger").1.mgr.disabledOverrides
        "core").getD [] ∧
    regHas (disablePlugin depWorld "core" "logger").1 "logger" = true ∧
    (disablePlugin depWorld "core" "logger").1.reg = depWorld.reg := by
  refine ⟨rfl, by decide, rfl, rfl⟩

-- ===========================================================================
-- C7: imported overrides versus loadCollection
-- ===========================================================================

/-- An imported snapshot force-enabling `tracer` for the not-yet-loaded
collection `core`. -/
def importedSnapshot : CollectionManagerState :=
  { version := "1.0.0", collections := [],
    enabledPlugins := [("core", ["tracer"])], disabledPlugins := [],
    pluginSettings := [] }

/-- C7 counterexample: import an explicit-enable override for
default-disabled `tracer`, then load `core`: `loadCollection` re-initializes
both override sets for the id to empty (lines 295-296), so the imported
override is discarded and `tracer`'s effective state per spec §3 — computed
from the stored override sets and the entry's default — is `false`, not the
imported `true` the claim requires. -/
theorem C7_import_then_load_counterexample :
    "tracer" ∈
      (mapGet (importState emptyMgr importedSnapshot).enabledOverrides "core").getD [] ∧
    mapGet (importState emptyMgr importedSnapshot).collections "core" = none ∧
    (loadCollection { mgr := importState emptyMgr importedSnapshot, reg := emptyReg }
      coreCollection).2 = Except.ok () ∧
    mapGet (loadCollection
      { mgr := importState emptyMgr importedSnapshot, reg := emptyReg }
      coreCollection).1.mgr.enabledOverrides "core" = some [] ∧
    effectiveSpec (loadCollection
      { mgr := importState emptyMgr importedSnapshot, reg := emptyReg }
      coreCollection).1.mgr "core" tracerEntry = false := by
  refine ⟨by decide, by decide, rfl, by decide, by decide⟩

-- ===========================================================================
-- loadCollection machinery (shared by C3 and C7)
-- ===========================================================================

theorem registerPlugin_snd_none (w : World) (e : PluginCollectionEntry)
    (h : e.plugin.name ∉ w.reg.registerFailures) : (registerPlugin w e).2 = none := by
  simp [registerPlugin, regRegister, resolvePlugin, h]

theorem registerPlugin_calls (w : World) (e : PluginCollectionEntry)
    (h : e.plugin.name ∉ w.reg.registerFailures) :
    (registerPlugin w e).1.reg.calls =
      w.reg.calls ++ [(e.plugin.name, registrationConfig w.mgr e.plugin.name)] := by
  simp [registerPlugin, regRegister, resolvePlugin, registrationConfig, h]

theorem registerPlugin_failures (w : World) (e : PluginCollectionEntry) :
    (registerPlugin w e).1.reg.registerFailures = w.reg.registerFailures :=
  (regRegister_fail_lists w _ _).2

theorem loadLoop_mgr (w : World) (cid : String) (es : List PluginCollectionEntry) :
    (loadLoop w cid es).1.mgr = w.mgr := by
  induction es generalizing w with
  | nil => rfl
  | cons e es ih =>
    rcases hr : registerPlugin w e with ⟨w1, err⟩
    have hm : w1.mgr = w.mgr := by
      have h2 := registerPlugin_mgr w e; rw [hr] at h2; exact h2
    cases err with
    | none =>
      have hstep : loadLoop w cid (e :: es) = loadLoop w1 cid es := by
        simp [loadLoop, unawaitedTruthy, hr]
      rw [hstep, ih, hm]
    | some msg =>
      have hstep : loadLoop w cid (e :: es) = (w1, .error (.error msg)) := by
        simp [loadLoop, unawaitedTruthy, hr]
      rw [hstep]; exact hm

theorem loadLoop_spec (w : World) (cid : String) (es : List PluginCollectionEntry)
    (hf : ∀ e ∈ es, e.plugin.name ∉ w.reg.registerFailures) :
    (loadLoop w cid es).2 = .ok () ∧
    (loadLoop w cid es).1.reg.calls = w.reg.calls ++
      es.map (fun e => (e.plugin.name, registrationConfig w.mgr e.plugin.name)) := by
  induction es generalizing w with
  | nil => simp [loadLoop]
  | cons e es ih =>
    have hnf : e.plugin.name ∉ w.reg.registerFailures :=
      hf e (List.mem_cons_self e es)
    rcases hr : registerPlugin w e with ⟨w1, err⟩
    have herr : err = none := by
      have h2 := registerPlugin_snd_none w e hnf; rw [hr] at h2; exact h2
    subst herr
    have hm : w1.mgr = w.mgr := by
      have h2 := registerPlugin_mgr w e; rw [hr] at h2; exact h2
    have hcalls : w1.reg.calls =
        w.reg.calls ++ [(e.plugin.name, registrationConfig w.mgr e.plugin.name)] := by
      have h2 := registerPlugin_calls w e hnf; rw [hr] at h2; exact h2
    have hfails : w1.reg.registerFailures = w.reg.registerFailures := by
      have h2 := registerPlugin_failures w e; rw [hr] at h2; exact h2
    have hstep : loadLoop w cid (e :: es) = loadLoop w1 cid es := by
      simp [loadLoop, unawaitedTruthy, hr]
    rw [hstep]
    have ih1 := ih w1 (fun e2 hm2 => by
      rw [hfails]; exact hf e2 (List.mem_cons_of_mem _ hm2))
    refine ⟨ih1.1, ?_⟩
    rw [ih1.2, hm, hcalls]
    simp [List.append_assoc]

theorem isPluginEnabled_of_empty (m : ManagerState) (cid : String)
    (e : PluginCollectionEntry)
    (h1 : mapGet m.enabledOverrides cid = some [])
    (h2 : mapGet m.disabledOverrides cid = some []) :
    isPluginEnabled m cid e = e.defaultEnabled := by
  simp [isPluginEnabled, h1, h2]

theorem effectiveSpec_of_empty (m : ManagerState) (cid : String)
    (e : PluginCollectionEntry)
    (h1 : mapGet m.enabledOverrides cid = some [])
    (h2 : mapGet m.disabledOverrides cid = some []) :
    effectiveSpec m cid e = e.defaultEnabled := by
  simp [effectiveSpec, h1, h2]

theorem loadCollection_spec (w : World) (c : PluginCollection)
    (hnew : mapGet w.mgr.collections c.id = none)
    (hf : ∀ e ∈ c.plugins, e.plugin.name ∉ w.reg.registerFailures) :
    (loadCollection w c).2 = .ok () ∧
    (loadCollection w c).1.mgr.collections = mapSet w.mgr.collections c.id c ∧
    (loadCollection w c).1.mgr.enabledOverrides = mapSet w.mgr.enabledOverrides c.id [] ∧
    (loadCollection w c).1.mgr.disabledOverrides = mapSet w.mgr.disabledOverrides c.id [] ∧
    (loadCollection w c).1.mgr.pluginSettings = w.mgr.pluginSettings ∧
    (loadCollection w c).1.reg.calls = w.reg.calls ++
      c.plugins.map (fun e => (e.plugin.name,
        registrationConfig (loadCollection w c).1.mgr e.plugin.name)) := by
  have hns : (mapGet w.mgr.collections c.id).isSome = false := by
    rw [hnew]; rfl
  have hstep : loadCollection w c =
      loadLoop { w with mgr := { w.mgr with
        collections := mapSet w.mgr.collections c.id c,
        enabledOverrides := mapSet w.mgr.enabledOverrides c.id [],
        disabledOverrides := mapSet w.mgr.disabledOverrides c.id [] } } c.id c.plugins := by
    simp [loadCollection, hns]
  rw [hstep]
  have hll := loadLoop_spec
    { w with mgr := { w.mgr with
      collections := mapSet w.mgr.collections c.id c,
      enabledOverrides := mapSet w.mgr.enabledOverrides c.id [],
      disabledOverrides := mapSet w.mgr.disabledOverrides c.id [] } } c.id c.plugins
    (fun e hm => hf e hm)
  have hmm := loadLoop_mgr
    { w with mgr := { w.mgr with
      collections := mapSet w.mgr.collections c.id c,
      enabledOverrides := mapSet w.mgr.enabledOverrides c.id [],
      disabledOverrides := mapSet w.mgr.disabledOverrides c.id [] } } c.id c.plugins
  refine ⟨hll.1, ?_, ?_, ?_, ?_, ?_⟩
  · rw [hmm]
  · rw [hmm]
  · rw [hmm]
  · rw [hmm]
  · rw [hmm]
    exact hll.2

theorem registrationConfig_congr (m1 m2 : ManagerState)
    (h : m1.pluginSettings = m2.pluginSettings) :
    registrationConfig m1 = registrationConfig m2 := by
  funext n
  simp [registrationConfig, h]

/-- C3 (code bug): `loadCollection` does not register only the effectively
enabled entries — line 300's `if (this.isPluginEnabled(collection.id,
entry))` is an unawaited async call whose Promise is truthy, so EVERY entry
is registered.  At the failing input, default-disabled `tracer` (whose
effective state after the override sets are initialized empty is `false`)
is registered alongside `logger`: the register-call trace lists both. -/
theorem C3_loadCollection_registers_all :
    (loadCollection { mgr := emptyMgr, reg := emptyReg } coreCollection).2 = .ok () ∧
    effectiveSpec (loadCollection { mgr := emptyMgr, reg := emptyReg }
      coreCollection).1.mgr "core" tracerEntry = false ∧
    (loadCollection { mgr := emptyMgr, reg := emptyReg }
      coreCollection).1.reg.calls.map (fun p => p.1) = ["logger", "tracer"] ∧
    regHas (loadCollection { mgr := emptyMgr, reg := emptyReg } coreCollection).1
      "tracer" = true := by
  refine ⟨rfl, by decide, by decide, rfl⟩

/-- C7 amended: overrides imported for a not-yet-loaded collection are
discarded when that collection is loaded — `loadCollection` re-initializes
both override sets for the id to empty, so every entry's effective state per
spec §3 (computed from the stored override sets and the entry's default)
equals its `defaultEnabled` flag, regardless of the imported sets. -/
theorem C7_amended_load_discards_imported_overrides (w : World)
    (s : CollectionManagerState) (c : PluginCollection) (e : PluginCollectionEntry)
    (hnew : mapGet (importState w.mgr s).collections c.id = none)
    (hmem : e ∈ c.plugins)
    (hf : ∀ e2 ∈ c.plugins, e2.plugin.name ∉ w.reg.registerFailures) :
    (loadCollection { mgr := importState w.mgr s, reg := w.reg } c).2 = .ok () ∧
    mapGet (loadCollection { mgr := importState w.mgr s, reg := w.reg }
      c).1.mgr.enabledOverrides c.id = some [] ∧
    mapGet (loadCollection { mgr := importState w.mgr s, reg := w.reg }
      c).1.mgr.disabledOverrides c.id = some [] ∧
    effectiveSpec (loadCollection { mgr := importState w.mgr s, reg := w.reg }
      c).1.mgr c.id e = e.defaultEnabled := by
  obtain ⟨h1, h2, h3, h4, h5, h6⟩ :=
    loadCollection_spec { mgr := importState w.mgr s, reg := w.reg } c hnew hf
  refine ⟨h1, ?_, ?_, ?_⟩
  · rw [h3, mapGet_mapSet]; simp
  · rw [h4, mapGet_mapSet]; simp
  · exact effectiveSpec_of_empty _ _ _
      (by rw [h3, mapGet_mapSet]; simp)
      (by rw [h4, mapGet_mapSet]; simp)

/-- Witness for the amended C7: importing an explicit-enable for `tracer`
then loading `core` leaves `tracer` at its default (disabled). -/
theorem C7_amended_load_discards_imported_overrides_witness :
    (loadCollection { mgr := importState emptyMgr importedSnapshot, reg := emptyReg }
      coreCollection).2 = .ok () ∧
    mapGet (loadCollection
      { mgr := importState emptyMgr importedSnapshot, reg := emptyReg }
      coreCollection).1.mgr.enabledOverrides coreCollection.id = some [] ∧
    mapGet (loadCollection
      { mgr := importState emptyMgr importedSnapshot, reg := emptyReg }
      coreCollection).1.mgr.disabledOverrides coreCollection.id = some [] ∧
    effectiveSpec (loadCollection
      { mgr := importState emptyMgr importedSnapshot, reg := emptyReg }
      coreCollection).1.mgr coreCollection.id tracerEntry =
      tracerEntry.defaultEnabled :=
  C7_amended_load_discards_imported_overrides
    { mgr := emptyMgr, reg := emptyReg } importedSnapshot coreCollection tracerEntry
    (by decide) (by decide) (by decide)

-- ===========================================================================
-- C4: togglePlugin
-- ===========================================================================

/-- A world with `coreCollection` loaded, empty overrides, `logger`
registered, and a registry that would accept both register and unregister,
for the C4 failing input. -/
def toggleWorld : World :=
  { mgr := { collections := [("core", coreCollection)],
             enabledOverrides := [("core", [])],
             disabledOverrides := [("core", [])],
             pluginSettings := [] },
    reg := { registered := [("logger", { enabled := true, settings := [] })],
             dependedUpon := [], registerFailures := [], calls := [] } }

/-- C4 (code bug): `togglePlugin` never returns the new boolean state.  At
the failing input — a loaded collection, a valid plugin name, and a fully
cooperative registry — `isEnabled` yields a truthy Promise, the disable
branch is always taken, and `disablePlugin` throws a TypeError after
committing its override mutation; so the first toggle already fails, a
second toggle fails identically, no boolean is ever returned, and the
registry is never updated (`logger` stays registered while recorded as
explicitly disabled). -/
theorem C4_togglePlugin_never_returns :
    (togglePlugin toggleWorld "core" "logger").2 = Except.error JsError.typeError ∧
    (togglePlugin (togglePlugin toggleWorld "core" "logger").1 "core" "logger").2 =
      Except.error JsError.typeError ∧
    "logger" ∈ (mapGet (togglePlugin toggleWorld "core"
      "logger").1.mgr.disabledOverrides "core").getD [] ∧
    regHas (togglePlugin toggleWorld "core" "logger").1 "logger" = true := by
  refine ⟨rfl, rfl, by decide, rfl⟩

-- ===========================================================================
-- getStats machinery (C9)
-- ===========================================================================

theorem catCount_bumpCategory (h : ByCategory) (c cat : PluginCategory) :
    catCount (bumpCategory h c) cat =
      catCount h cat + (if c = cat then 1 else 0) := by
  cases c <;> cases cat <;> simp [bumpCategory, catCount]

theorem catCount_zero (cat : PluginCategory) : catCount zeroByCategory cat = 0 := by
  cases cat <;> rfl

theorem statsStep_totalCollections (m : ManagerState) (acc : CollectionStats)
    (x : String × PluginCollectionEntry) :
    (statsStep m acc x).totalCollections = acc.totalCollections := by
  simp [statsStep, unawaitedTruthy]

theorem statsStep_totalPlugins (m : ManagerState) (acc : CollectionStats)
    (x : String × PluginCollectionEntry) :
    (statsStep m acc x).totalPlugins = acc.totalPlugins + 1 := by
  simp [statsStep, unawaitedTruthy]

theorem statsStep_enabled (m : ManagerState) (acc : CollectionStats)
    (x : String × PluginCollectionEntry) :
    (statsStep m acc x).enabledPlugins = acc.enabledPlugins + 1 := by
  simp [statsStep, unawaitedTruthy]

theorem statsStep_disabled (m : ManagerState) (acc : CollectionStats)
    (x : String × PluginCollectionEntry) :
    (statsStep m acc x).disabledPlugins = acc.disabledPlugins := by
  simp [statsStep, unawaitedTruthy]

theorem statsStep_byCategory (m : ManagerState) (acc : CollectionStats)
    (x : String × PluginCollectionEntry) (cat : PluginCategory) :
    catCount (statsStep m acc x).byCategory cat =
      catCount acc.byCategory cat + (if x.2.category = cat then 1 else 0) := by
  simp [statsStep, unawaitedTruthy, catCount_bumpCategory]

theorem foldl_statsStep_totalCollections (m : ManagerState)
    (l : List (String × PluginCollectionEntry)) (acc : CollectionStats) :
    (l.foldl (statsStep m) acc).totalCollections = acc.totalCollections := by
  induction l generalizing acc with
  | nil => rfl
  | cons x xs ih => rw [List.foldl_cons, ih, statsStep_totalCollections]

theorem foldl_statsStep_totalPlugins (m : ManagerState)
    (l : List (String × PluginCollectionEntry)) (acc : CollectionStats) :
    (l.foldl (statsStep m) acc).totalPlugins = acc.totalPlugins + l.length := by
  induction l generalizing acc with
  | nil => rfl
  | cons x xs ih =>
    rw [List.foldl_cons, ih, statsStep_totalPlugins, List.length_cons]
    omega

theorem foldl_statsStep_enabled (m : ManagerState)
    (l : List (String × PluginCollectionEntry)) (acc : CollectionStats) :
    (l.foldl (statsStep m) acc).enabledPlugins = acc.enabledPlugins + l.length := by
  induction l generalizing acc with
  | nil => rfl
  | cons x xs ih =>
    rw [List.foldl_cons, ih, statsStep_enabled, List.length_cons]
    omega

theorem foldl_statsStep_disabled (m : ManagerState)
    (l : List (String × PluginCollectionEntry)) (acc : CollectionStats) :
    (l.foldl (statsStep m) acc).disabledPlugins = acc.disabledPlugins := by
  induction l generalizing acc with
  | nil => rfl
  | cons x xs ih => rw [List.foldl_cons, ih, statsStep_disabled]

theorem foldl_statsStep_byCategory (m : ManagerState)
    (l : List (String × PluginCollectionEntry)) (acc : CollectionStats)
    (cat : PluginCategory) :
    catCount (l.foldl (statsStep m) acc).byCategory cat =
      catCount acc.byCategory cat + l.countP (fun x => x.2.category = cat) := by
  induction l generalizing acc with
  | nil => rfl
  | cons x xs ih =>
    rw [List.foldl_cons, ih, statsStep_byCategory, List.countP_cons]
    by_cases h : x.2.category = cat <;> simp [h] <;> omega

/-- The manager state obtained by loading `coreCollection` into a fresh
manager, spec §8's example input (1 default-enabled, 1 default-disabled). -/
def loadedCoreMgr : ManagerState :=
  (loadCollection { mgr := emptyMgr, reg := emptyReg } coreCollection).1.mgr

/-- C9 (code bug): `getStats` does not count by effective state — line 765's
`if (this.isPluginEnabled(collectionId, entry))` is an unawaited async call
whose Promise is truthy, so every entry is counted enabled: for every
manager state, `enabledPlugins` equals `totalPlugins` and `disabledPlugins`
is 0 (hence they sum to the total only degenerately).  At spec §8's example
input the program reports 2 enabled / 0 disabled where the effective states
(per spec §3, counted via `effectiveSpec`) are 1 / 1.  Total counts and the
nine-field category histogram are computed as the claim states. -/
theorem C9_getStats_counts_everything_enabled :
    (∀ m : ManagerState,
      (getStats m).totalCollections = m.collections.length ∧
      (getStats m).totalPlugins = (allEntries m).length ∧
      (getStats m).enabledPlugins = (getStats m).totalPlugins ∧
      (getStats m).disabledPlugins = 0 ∧
      ∀ cat, catCount (getStats m).byCategory cat =
        (allEntries m).countP (fun x => x.2.category = cat)) ∧
    (getStats loadedCoreMgr).enabledPlugins = 2 ∧
    (getStats loadedCoreMgr).disabledPlugins = 0 ∧
    (allEntries loadedCoreMgr).countP
      (fun x => effectiveSpec loadedCoreMgr x.1 x.2) = 1 := by
  refine ⟨?_, by decide, by decide, by decide⟩
  intro m
  have ht : (getStats m).totalPlugins = (allEntries m).length := by
    unfold getStats
    rw [foldl_statsStep_totalPlugins]
    simp
  refine ⟨?_, ht, ?_, ?_, ?_⟩
  · unfold getStats
    rw [foldl_statsStep_totalCollections]
  · rw [ht]
    unfold getStats
    rw [foldl_statsStep_enabled]
    simp
  · unfold getStats
    rw [foldl_statsStep_disabled]
  · intro cat
    unfold getStats
    rw [foldl_statsStep_byCategory]
    simp [catCount_zero]

-- ===========================================================================
-- searchPlugins machinery (C8)
-- ===========================================================================

theorem entryScore_eq_spec (e : PluginCollectionEntry) (query : String) :
    entryScore e query.toLower = searchScoreSpec e query := rfl

theorem searchCandidates_eq_spec (m : ManagerState) (query : String) :
    searchCandidates m query.toLower = searchCandidatesSpec m query := by
  unfold searchCandidates searchCandidatesSpec
  refine List.filterMap_congr (fun x hx => ?_)
  rw [entryScore_eq_spec]
  by_cases h : searchScoreSpec x.2 query = 0
  · simp [h]
  · have hpos : searchScoreSpec x.2 query > 0 := Nat.pos_of_ne_zero h
    simp [h, hpos, resolvePlugin]

theorem mem_insertDesc (x z : SearchResult) (l : List SearchResult) :
    z ∈ insertDesc x l ↔ z = x ∨ z ∈ l := by
  induction l with
  | nil => simp [insertDesc]
  | cons y ys ih =>
    unfold insertDesc
    by_cases h : y.score ≤ x.score <;> simp [h, ih] <;> tauto

theorem insertDesc_sorted (x : SearchResult) (l : List SearchResult)
    (hl : l.Pairwise (fun a b => b.score ≤ a.score)) :
    (insertDesc x l).Pairwise (fun a b => b.score ≤ a.score) := by
  induction l with
  | nil => simp [insertDesc]
  | cons y ys ih =>
    rw [List.pairwise_cons] at hl
    unfold insertDesc
    by_cases h : y.score ≤ x.score
    · rw [if_pos h, List.pairwise_cons]
      refine ⟨?_, List.pairwise_cons.mpr hl⟩
      intro z hz
      rcases List.mem_cons.mp hz with rfl | hz2
      · exact h
      · exact le_trans (hl.1 z hz2) h
    · rw [if_neg h, List.pairwise_cons]
      refine ⟨?_, ih hl.2⟩
      intro z hz
      rcases (mem_insertDesc x z ys).mp hz with rfl | hz2
      · omega
      · exact hl.1 z hz2

theorem sortDesc_sorted (l : List SearchResult) :
    (sortDesc l).Pairwise (fun a b => b.score ≤ a.score) := by
  induction l with
  | nil => simp [sortDesc]
  | cons y ys ih => exact insertDesc_sorted y _ ih

theorem filter_score_insertDesc (s : Nat) (x : SearchResult)
    (l : List SearchResult) :
    (insertDesc x l).filter (fun r => r.score = s) =
      (x :: l).filter (fun r => r.score = s) := by
  induction l with
  | nil => rfl
  | cons y ys ih =>
    unfold insertDesc
    by_cases h : y.score ≤ x.score
    · rw [if_pos h]
    · rw [if_neg h]
      by_cases hx : x.score = s
      · by_cases hy : y.score = s
        · omega
        · simp [List.filter_cons, hx, hy, ih]
      · by_cases hy : y.score = s
        · simp [List.filter_cons, hx, hy, ih]
        · simp [List.filter_cons, hx, hy, ih]

theorem filter_score_sortDesc (s : Nat) (l : List SearchResult) :
    (sortDesc l).filter (fun r => r.score = s) =
      l.filter (fun r => r.score = s) := by
  induction l with
  | nil => rfl
  | cons y ys ih =>
    show (insertDesc y (sortDesc ys)).filter (fun r => r.score = s) = _
    rw [filter_score_insertDesc, List.filter_cons, List.filter_cons, ih]

/-- C8: `searchPlugins` scores each entry across all loaded collections
case-insensitively with the additive weights of spec §4.4 (exact name 100
else substring name 50, description substring 25, tag substring 30, category
substring 20), excludes zero-score rows, and returns the rows sorted by
descending score with ties kept in discovery order: the result equals a
stable descending sort of the spec-scored discovery-order candidate list, it
is sorted, and for every score level the rows appear in discovery order. -/
theorem C8_searchPlugins_correct (m : ManagerState) (query : String) :
    searchPlugins m query = sortDesc (searchCandidatesSpec m query) ∧
    (searchPlugins m query).Pairwise (fun a b => b.score ≤ a.score) ∧
    ∀ s, (searchPlugins m query).filter (fun r => r.score = s) =
      (searchCandidatesSpec m query).filter (fun r => r.score = s) := by
  have hcand : searchCandidates m query.toLower = searchCandidatesSpec m query :=
    searchCandidates_eq_spec m query
  refine ⟨?_, ?_, ?_⟩
  · unfold searchPlugins
    rw [hcand]
  · unfold searchPlugins
    exact sortDesc_sorted _
  · intro s
    unfold searchPlugins
    rw [filter_score_sortDesc, hcand]

-- ===========================================================================
-- C2: the override-set disjointness invariant
-- ===========================================================================

/-- An imported snapshot naming `logger` in both override sets of `core`. -/
def overlappingSnapshot : CollectionManagerState :=
  { version := "1.0.0", collections := [],
    enabledPlugins := [("core", ["logger"])],
    disabledPlugins := [("core", ["logger"])],
    pluginSettings := [] }

/-- C2 counterexample: `importState` installs its input sets verbatim, so an
imported snapshot naming the same plugin in both sets for one collection
leaves the name in both override sets — the invariant does not survive
arbitrary `importState` inputs. -/
theorem C2_import_overlap_counterexample :
    "logger" ∈
      (mapGet (importState emptyMgr overlappingSnapshot).enabledOverrides
        "core").getD [] ∧
    "logger" ∈
      (mapGet (importState emptyMgr overlappingSnapshot).disabledOverrides
        "core").getD [] := by
  decide

/-- The override mutation performed by `enablePlugin` once the entry is
found: delete from the disabled set, add to the enabled set. -/
def enableMut (m : ManagerState) (cid n : String) : ManagerState :=
  { m with
    disabledOverrides := mapModify m.disabledOverrides cid
      (fun s => setDelete s n),
    enabledOverrides := mapModify m.enabledOverrides cid
      (fun s => setAdd s n) }

/-- The override mutation performed by `disablePlugin`. -/
def disableMut (m : ManagerState) (cid n : String) : ManagerState :=
  { m with
    enabledOverrides := mapModify m.enabledOverrides cid
      (fun s => setDelete s n),
    disabledOverrides := mapModify m.disabledOverrides cid
      (fun s => setAdd s n) }

/-- The manager-side initialization performed by `loadCollection`. -/
def loadInit (m : ManagerState) (c : PluginCollection) : ManagerState :=
  { m with
    collections := mapSet m.collections c.id c,
    enabledOverrides := mapSet m.enabledOverrides c.id [],
    disabledOverrides := mapSet m.disabledOverrides c.id [] }

/-- The manager-side removal performed by `unloadCollection`. -/
def unloadMut (m : ManagerState) (cid : String) : ManagerState :=
  { m with
    collections := mapDelete m.collections cid,
    enabledOverrides := mapDelete m.enabledOverrides cid,
    disabledOverrides := mapDelete m.disabledOverrides cid }

/-- Well-formedness of the override maps (reachable states have
duplicate-free keys, as JS `Map`s do by construction). -/
def OverrideKeysNodup (m : ManagerState) : Prop :=
  (m.enabledOverrides.map Prod.fst).Nodup ∧
  (m.disabledOverrides.map Prod.fst).Nodup

/-- The invariant of spec §3: no plugin name is in both override sets of a
collection. -/
def OverridesDisjoint (m : ManagerState) : Prop :=
  ∀ cid n, n ∈ (mapGet m.enabledOverrides cid).getD [] →
    n ∉ (mapGet m.disabledOverrides cid).getD []

def OverrideInv (m : ManagerState) : Prop :=
  OverrideKeysNodup m ∧ OverridesDisjoint m

theorem OverrideInv_enableMut (m : ManagerState) (cid n : String)
    (h : OverrideInv m) : OverrideInv (enableMut m cid n) := by
  obtain ⟨⟨hk1, hk2⟩, hdj⟩ := h
  refine ⟨⟨?_, ?_⟩, ?_⟩
  · show ((mapModify m.enabledOverrides cid (fun s => setAdd s n)).map Prod.fst).Nodup
    rw [mapKeys_mapModify]; exact hk1
  · show ((mapModify m.disabledOverrides cid (fun s => setDelete s n)).map Prod.fst).Nodup
    rw [mapKeys_mapModify]; exact hk2
  · intro cid2 n2 h1 h2
    have he : mapGet (enableMut m cid n).enabledOverrides cid2 =
        if cid2 = cid then (mapGet m.enabledOverrides cid).map
          (fun s => setAdd s n) else mapGet m.enabledOverrides cid2 :=
      mapGet_mapModify _ _ _ _
    have hd : mapGet (enableMut m cid n).disabledOverrides cid2 =
        if cid2 = cid then (mapGet m.disabledOverrides cid).map
          (fun s => setDelete s n) else mapGet m.disabledOverrides cid2 :=
      mapGet_mapModify _ _ _ _
    by_cases hc : cid2 = cid
    · subst hc
      rw [he, if_pos rfl] at h1
      rw [hd, if_pos rfl] at h2
      cases hg1 : mapGet m.enabledOverrides cid2 with
      | none => rw [hg1] at h1; simp at h1
      | some es =>
        rw [hg1] at h1
        simp only [Option.map_some', Option.getD_some] at h1
        cases hg2 : mapGet m.disabledOverrides cid2 with
        | none => rw [hg2] at h2; simp at h2
        | some ds =>
          rw [hg2] at h2
          simp only [Option.map_some', Option.getD_some] at h2
          rw [mem_setDelete] at h2
          rcases (mem_setAdd es n n2).mp h1 with rfl | h1b
          · exact h2.2 rfl
          · exact hdj cid2 n2 (by rw [hg1]; exact h1b) (by rw [hg2]; exact h2.1)
    · rw [he, if_neg hc] at h1
      rw [hd, if_neg hc] at h2
      exact hdj cid2 n2 h1 h2

theorem OverrideInv_disableMut (m : ManagerState) (cid n : String)
    (h : OverrideInv m) : OverrideInv (disableMut m cid n) := by
  obtain ⟨⟨hk1, hk2⟩, hdj⟩ := h
  refine ⟨⟨?_, ?_⟩, ?_⟩
  · show ((mapModify m.enabledOverrides cid (fun s => setDelete s n)).map Prod.fst).Nodup
    rw [mapKeys_mapModify]; exact hk1
  · show ((mapModify m.disabledOverrides cid (fun s => setAdd s n)).map Prod.fst).Nodup
    rw [mapKeys_mapModify]; exact hk2
  · intro cid2 n2 h1 h2
    have he : mapGet (disableMut m cid n).enabledOverrides cid2 =
        if cid2 = cid then (mapGet m.enabledOverrides cid).map
          (fun s => setDelete s n) else mapGet m.enabledOverrides cid2 :=
      mapGet_mapModify _ _ _ _
    have hd : mapGet (disableMut m cid n).disabledOverrides cid2 =
        if cid2 = cid then (mapGet m.disabledOverrides cid).map
          (fun s => setAdd s n) else mapGet m.disabledOverrides cid2 :=
      mapGet_mapModify _ _ _ _
    by_cases hc : cid2 = cid
    · subst hc
      rw [he, if_pos rfl] at h1
      rw [hd, if_pos rfl] at h2
      cases hg1 : mapGet m.enabledOverrides cid2 with
      | none => rw [hg1] at h1; simp at h1
      | some es =>
        rw [hg1] at h1
        simp only [Option.map_some', Option.getD_some] at h1
        cases hg2 : mapGet m.disabledOverrides cid2 with
        | none => rw [hg2] at h2; simp at h2
        | some ds =>
          rw [hg2] at h2
          simp only [Option.map_some', Option.getD_some] at h2
          rw [mem_setDelete] at h1
          rcases (mem_setAdd ds n n2).mp h2 with rfl | h2b
          · exact h1.2 rfl
          · exact hdj cid2 n2 (by rw [hg1]; exact h1.1) (by rw [hg2]; exact h2b)
    · rw [he, if_neg hc] at h1
      rw [hd, if_neg hc] at h2
      exact hdj cid2 n2 h1 h2

theorem OverrideInv_loadInit (m : ManagerState) (c : PluginCollection)
    (h : OverrideInv m) : OverrideInv (loadInit m c) := by
  obtain ⟨⟨hk1, hk2⟩, hdj⟩ := h
  refine ⟨⟨mapKeys_mapSet_nodup _ _ _ hk1, mapKeys_mapSet_nodup _ _ _ hk2⟩, ?_⟩
  intro cid2 n2 h1 h2
  have he : mapGet (loadInit m c).enabledOverrides cid2 =
      if cid2 = c.id then some [] else mapGet m.enabledOverrides cid2 :=
    mapGet_mapSet _ _ _ _
  have hd : mapGet (loadInit m c).disabledOverrides cid2 =
      if cid2 = c.id then some [] else mapGet m.disabledOverrides cid2 :=
    mapGet_mapSet _ _ _ _
  by_cases hc : cid2 = c.id
  · rw [he, if_pos hc] at h1
    simp at h1
  · rw [he, if_neg hc] at h1
    rw [hd, if_neg hc] at h2
    exact hdj cid2 n2 h1 h2

theorem OverrideInv_unloadMut (m : ManagerState) (cid : String)
    (h : OverrideInv m) : OverrideInv (unloadMut m cid) := by
  obtain ⟨⟨hk1, hk2⟩, hdj⟩ := h
  refine ⟨⟨mapKeys_mapDelete_nodup _ _ hk1, mapKeys_mapDelete_nodup _ _ hk2⟩, ?_⟩
  intro cid2 n2 h1 h2
  by_cases hc : cid2 = cid
  · subst hc
    have : mapGet (unloadMut m cid2).enabledOverrides cid2 = none := by
      show mapGet (mapDelete m.enabledOverrides cid2) cid2 = none
      exact mapGet_mapDelete_self _ _ hk1
    rw [this] at h1
    simp at h1
  · have he : mapGet (unloadMut m cid).enabledOverrides cid2 =
        mapGet m.enabledOverrides cid2 := mapGet_mapDelete_ne _ _ _ hc
    have hd : mapGet (unloadMut m cid).disabledOverrides cid2 =
        mapGet m.disabledOverrides cid2 := mapGet_mapDelete_ne _ _ _ hc
    rw [he] at h1
    rw [hd] at h2
    exact hdj cid2 n2 h1 h2

theorem enablePlugin_mgr_cases (w : World) (cid n : String) :
    (enablePlugin w cid n).1.mgr = w.mgr ∨
    (enablePlugin w cid n).1.mgr = enableMut w.mgr cid n := by
  cases hc : mapGet w.mgr.collections cid with
  | none => left; simp [enablePlugin, hc]
  | some c => right; simp [enablePlugin, hc, enableMut]

theorem disablePlugin_mgr_cases (w : World) (cid n : String) :
    (disablePlugin w cid n).1.mgr = w.mgr ∨
    (disablePlugin w cid n).1.mgr = disableMut w.mgr cid n := by
  cases hc : mapGet w.mgr.collections cid with
  | none => left; simp [disablePlugin, hc]
  | some c => right; simp [disablePlugin, hc, disableMut]

theorem OverrideInv_enablePlugin (w : World) (cid n : String)
    (h : OverrideInv w.mgr) : OverrideInv (enablePlugin w cid n).1.mgr := by
  rcases enablePlugin_mgr_cases w cid n with hE | hE
  · rw [hE]; exact h
  · rw [hE]; exact OverrideInv_enableMut _ _ _ h

theorem OverrideInv_disablePlugin (w : World) (cid n : String)
    (h : OverrideInv w.mgr) : OverrideInv (disablePlugin w cid n).1.mgr := by
  rcases disablePlugin_mgr_cases w cid n with hE | hE
  · rw [hE]; exact h
  · rw [hE]; exact OverrideInv_disableMut _ _ _ h

theorem OverrideInv_togglePlugin (w : World) (cid n : String)
    (h : OverrideInv w.mgr) : OverrideInv (togglePlugin w cid n).1.mgr := by
  unfold togglePlugin
  by_cases hen : jsTruthy (isEnabled w.mgr cid n) = true
  · simp only [hen, if_true]
    rcases hd : disablePlugin w cid n with ⟨w1, r⟩
    have h1 : OverrideInv w1.mgr := by
      have h2 := OverrideInv_disablePlugin w cid n h
      rw [hd] at h2
      exact h2
    cases r with
    | ok u => exact h1
    | error msg => exact h1
  · have henf : jsTruthy (isEnabled w.mgr cid n) = false := by simpa using hen
    simp only [henf, Bool.false_eq_true, if_false]
    rcases hd : enablePlugin w cid n with ⟨w1, r⟩
    have h1 : OverrideInv w1.mgr := by
      have h2 := OverrideInv_enablePlugin w cid n h
      rw [hd] at h2
      exact h2
    cases r with
    | ok u => exact h1
    | error msg => exact h1

theorem loadCollection_mgr_cases (w : World) (c : PluginCollection) :
    (loadCollection w c).1.mgr = w.mgr ∨
    (loadCollection w c).1.mgr = loadInit w.mgr c := by
  by_cases h : (mapGet w.mgr.collections c.id).isSome
  · left; simp [loadCollection, h]
  · right
    have hstep : loadCollection w c =
        loadLoop { w with mgr := loadInit w.mgr c } c.id c.plugins := by
      simp only [loadCollection, loadInit]
      rw [if_neg (by simpa using h)]
    rw [hstep, loadLoop_mgr]

theorem OverrideInv_loadCollection (w : World) (c : PluginCollection)
    (h : OverrideInv w.mgr) : OverrideInv (loadCollection w c).1.mgr := by
  rcases loadCollection_mgr_cases w c with hE | hE
  · rw [hE]; exact h
  · rw [hE]; exact OverrideInv_loadInit _ _ h

theorem unloadLoop_mgr (w : World) (es : List PluginCollectionEntry) :
    (unloadLoop w es).mgr = w.mgr := by
  induction es generalizing w with
  | nil => rfl
  | cons e es ih =>
    unfold unloadLoop
    by_cases h : regHas w (resolvePlugin e.plugin).name
    · rw [if_pos h, ih, regUnregister_mgr]
    · rw [if_neg h, ih]

theorem unloadCollection_mgr_cases (w : World) (cid : String) :
    (unloadCollection w cid).1.mgr = w.mgr ∨
    (unloadCollection w cid).1.mgr = unloadMut w.mgr cid := by
  cases hc : mapGet w.mgr.collections cid with
  | none => left; simp [unloadCollection, hc]
  | some c =>
    right
    simp only [unloadCollection, hc]
    show { (unloadLoop w c.plugins).mgr with
      collections := mapDelete (unloadLoop w c.plugins).mgr.collections cid,
      enabledOverrides := mapDelete (unloadLoop w c.plugins).mgr.enabledOverrides cid,
      disabledOverrides :=
        mapDelete (unloadLoop w c.plugins).mgr.disabledOverrides cid } =
      unloadMut w.mgr cid
    rw [unloadLoop_mgr]
    rfl

theorem OverrideInv_unloadCollection (w : World) (cid : String)
    (h : OverrideInv w.mgr) : OverrideInv (unloadCollection w cid).1.mgr := by
  rcases unloadCollection_mgr_cases w cid with hE | hE
  · rw [hE]; exact h
  · rw [hE]; exact OverrideInv_unloadMut _ _ h

theorem OverrideInv_enableAllLoop (cid : String) (es : List PluginCollectionEntry) :
    ∀ w : World, OverrideInv w.mgr → OverrideInv (enableAllLoop w cid es).1.mgr := by
  induction es with
  | nil => intro w h; exact h
  | cons e es ih =>
    intro w h
    unfold enableAllLoop
    rcases hr : enablePlugin w cid (resolvePlugin e.plugin).name with ⟨w1, r⟩
    have h1 : OverrideInv w1.mgr := by
      have h2 := OverrideInv_enablePlugin w cid (resolvePlugin e.plugin).name h
      rw [hr] at h2
      exact h2
    cases r with
    | ok u => exact ih w1 h1
    | error msg => exact h1

theorem OverrideInv_enableAll (w : World) (cid : String)
    (h : OverrideInv w.mgr) : OverrideInv (enableAll w cid).1.mgr := by
  unfold enableAll
  cases hc : mapGet w.mgr.collections cid with
  | none => exact h
  | some c => exact OverrideInv_enableAllLoop cid c.plugins w h

theorem OverrideInv_disableAllLoop (cid : String) (es : List PluginCollectionEntry) :
    ∀ w : World, OverrideInv w.mgr → OverrideInv (disableAllLoop w cid es).mgr := by
  induction es with
  | nil => intro w h; exact h
  | cons e es ih =>
    intro w h
    unfold disableAllLoop
    refine ih _ ?_
    exact OverrideInv_disablePlugin w cid (resolvePlugin e.plugin).name h

theorem OverrideInv_disableAll (w : World) (cid : String)
    (h : OverrideInv w.mgr) : OverrideInv (disableAll w cid).1.mgr := by
  unfold disableAll
  cases hc : mapGet w.mgr.collections cid with
  | none => exact h
  | some c => exact OverrideInv_disableAllLoop cid c.plugins.reverse w h

theorem OverrideInv_enableCategoryLoop (cid : String) (cat : PluginCategory)
    (es : List PluginCollectionEntry) :
    ∀ w : World, OverrideInv w.mgr →
      OverrideInv (enableCategoryLoop w cid cat es).mgr := by
  induction es with
  | nil => intro w h; exact h
  | cons e es ih =>
    intro w h
    unfold enableCategoryLoop
    by_cases hcat : e.category = cat
    · rw [if_pos hcat]
      refine ih _ ?_
      exact OverrideInv_enablePlugin w cid (resolvePlugin e.plugin).name h
    · rw [if_neg hcat]
      exact ih w h

theorem OverrideInv_disableCategoryLoop (cid : String) (cat : PluginCategory)
    (es : List PluginCollectionEntry) :
    ∀ w : World, OverrideInv w.mgr →
      OverrideInv (disableCategoryLoop w cid cat es).mgr := by
  induction es with
  | nil => intro w h; exact h
  | cons e es ih =>
    intro w h
    unfold disableCategoryLoop
    by_cases hcat : e.category = cat
    · rw [if_pos hcat]
      refine ih _ ?_
      exact OverrideInv_disablePlugin w cid (resolvePlugin e.plugin).name h
    · rw [if_neg hcat]
      exact ih w h

theorem OverrideInv_foldl_enableCategory (cat : PluginCategory)
    (l : List (String × PluginCollection)) :
    ∀ w : World, OverrideInv w.mgr →
      OverrideInv ((l.foldl
        (fun acc p => enableCategoryLoop acc p.1 cat p.2.plugins) w)).mgr := by
  induction l with
  | nil => intro w h; exact h
  | cons p ps ih =>
    intro w h
    rw [List.foldl_cons]
    exact ih _ (OverrideInv_enableCategoryLoop p.1 cat p.2.plugins w h)

theorem OverrideInv_enableCategory (w : World) (cat : PluginCategory)
    (h : OverrideInv w.mgr) : OverrideInv (enableCategory w cat).mgr :=
  OverrideInv_foldl_enableCategory cat w.mgr.collections w h

theorem OverrideInv_foldl_disableCategory (cat : PluginCategory)
    (l : List (String × PluginCollection)) :
    ∀ w : World, OverrideInv w.mgr →
      OverrideInv ((l.foldl
        (fun acc p => disableCategoryLoop acc p.1 cat p.2.plugins.reverse) w)).mgr := by
  induction l with
  | nil => intro w h; exact h
  | cons p ps ih =>
    intro w h
    rw [List.foldl_cons]
    exact ih _ (OverrideInv_disableCategoryLoop p.1 cat p.2.plugins.reverse w h)

theorem OverrideInv_disableCategory (w : World) (cat : PluginCategory)
    (h : OverrideInv w.mgr) : OverrideInv (disableCategory w cat).mgr :=
  OverrideInv_foldl_disableCategory cat w.mgr.collections w h

-- import preservation

/-- The enabled override set a collection id ends up with after
`importState`: the input's set (deduplicated) if the input mentions the id,
else the previously stored set. -/
def importedEnabledSet (m : ManagerState) (s : CollectionManagerState)
    (cid : String) : List String :=
  match mapGet s.enabledPlugins cid with
  | some l => setOfList l
  | none => (mapGet m.enabledOverrides cid).getD []

/-- The disabled counterpart of `importedEnabledSet`. -/
def importedDisabledSet (m : ManagerState) (s : CollectionManagerState)
    (cid : String) : List String :=
  match mapGet s.disabledPlugins cid with
  | some l => setOfList l
  | none => (mapGet m.disabledOverrides cid).getD []

theorem importOverrides_keys_nodup (ov input : List (String × List String))
    (h : (ov.map Prod.fst).Nodup) :
    ((importOverrides ov input).map Prod.fst).Nodup := by
  induction input generalizing ov with
  | nil => exact h
  | cons p ps ih => exact ih _ (mapKeys_mapSet_nodup _ _ _ h)

theorem importState_enabled_getD (m : ManagerState) (s : CollectionManagerState)
    (cid : String) (hnd : (s.enabledPlugins.map Prod.fst).Nodup) :
    (mapGet (importState m s).enabledOverrides cid).getD [] =
      importedEnabledSet m s cid := by
  show (mapGet (importOverrides m.enabledOverrides s.enabledPlugins) cid).getD [] = _
  rw [mapGet_importOverrides _ _ _ hnd]
  unfold importedEnabledSet
  cases mapGet s.enabledPlugins cid <;> rfl

theorem importState_disabled_getD (m : ManagerState) (s : CollectionManagerState)
    (cid : String) (hnd : (s.disabledPlugins.map Prod.fst).Nodup) :
    (mapGet (importState m s).disabledOverrides cid).getD [] =
      importedDisabledSet m s cid := by
  show (mapGet (importOverrides m.disabledOverrides s.disabledPlugins) cid).getD [] = _
  rw [mapGet_importOverrides _ _ _ hnd]
  unfold importedDisabledSet
  cases mapGet s.disabledPlugins cid <;> rfl

theorem OverrideInv_importState (m : ManagerState) (s : CollectionManagerState)
    (h : OverrideInv m)
    (hse : (s.enabledPlugins.map Prod.fst).Nodup)
    (hsd : (s.disabledPlugins.map Prod.fst).Nodup)
    (hdisj : ∀ cid n, n ∈ importedEnabledSet m s cid →
      n ∉ importedDisabledSet m s cid) :
    OverrideInv (importState m s) := by
  refine ⟨⟨?_, ?_⟩, ?_⟩
  · exact importOverrides_keys_nodup _ _ h.1.1
  · exact importOverrides_keys_nodup _ _ h.1.2
  · intro cid n h1 h2
    rw [importState_enabled_getD _ _ _ hse] at h1
    rw [importState_disabled_getD _ _ _ hsd] at h2
    exact hdisj cid n h1 h2

/-- One public mutating Manager operation, relating the world before to the
world after (the world after is the state as left even when the operation
throws, matching JS exception semantics).  The `importOp` constructor
carries the amended claim's side conditions: the imported snapshot's
per-collection name lists have JS-object-unique keys, and the override sets
resulting from the replacement are disjoint per collection. -/
inductive Step : World → World → Prop where
  | load (w : World) (c : PluginCollection) : Step w (loadCollection w c).1
  | unload (w : World) (cid : String) : Step w (unloadCollection w cid).1
  | enable (w : World) (cid n : String) : Step w (enablePlugin w cid n).1
  | disable (w : World) (cid n : String) : Step w (disablePlugin w cid n).1
  | toggle (w : World) (cid n : String) : Step w (togglePlugin w cid n).1
  | enableAllOp (w : World) (cid : String) : Step w (enableAll w cid).1
  | disableAllOp (w : World) (cid : String) : Step w (disableAll w cid).1
  | enableCategoryOp (w : World) (cat : PluginCategory) :
      Step w (enableCategory w cat)
  | disableCategoryOp (w : World) (cat : PluginCategory) :
      Step w (disableCategory w cat)
  | importOp (w : World) (s : CollectionManagerState)
      (hse : (s.enabledPlugins.map Prod.fst).Nodup)
      (hsd : (s.disabledPlugins.map Prod.fst).Nodup)
      (hdisj : ∀ cid n, n ∈ importedEnabledSet w.mgr s cid →
        n ∉ importedDisabledSet w.mgr s cid) :
      Step w { w with mgr := importState w.mgr s }
  | setSettingsOp (w : World) (n : String) (s : JsObj) :
      Step w { w with mgr := setPluginSettings w.mgr n s }
  | updateSettingsOp (w : World) (n : String) (s : JsObj) :
      Step w { w with mgr := updatePluginSettings w.mgr n s }

theorem OverrideInv_step (w w' : World) (hstep : Step w w')
    (h : OverrideInv w.mgr) : OverrideInv w'.mgr := by
  cases hstep with
  | load c => exact OverrideInv_loadCollection w c h
  | unload cid => exact OverrideInv_unloadCollection w cid h
  | enable cid n => exact OverrideInv_enablePlugin w cid n h
  | disable cid n => exact OverrideInv_disablePlugin w cid n h
  | toggle cid n => exact OverrideInv_togglePlugin w cid n h
  | enableAllOp cid => exact OverrideInv_enableAll w cid h
  | disableAllOp cid => exact OverrideInv_disableAll w cid h
  | enableCategoryOp cat => exact OverrideInv_enableCategory w cat h
  | disableCategoryOp cat => exact OverrideInv_disableCategory w cat h
  | importOp s hse hsd hdisj => exact OverrideInv_importState w.mgr s h hse hsd hdisj
  | setSettingsOp n s => exact h
  | updateSettingsOp n s => exact h

/-- C2 amended: starting from a well-formed state whose override sets are
pairwise disjoint per collection (e.g. a fresh manager), after any sequence
of Manager operations — enablePlugin, disablePlugin, togglePlugin,
loadCollection, unloadCollection, the bulk and category operations, settings
updates, and importState restricted to inputs whose replacement yields
disjoint per-collection sets — every plugin name appears in at most one of a
collection's two override sets.  (Unrestricted importState can violate this:
see the counterexample.) -/
theorem C2_override_sets_disjoint (w w' : World)
    (hinv : OverrideInv w.mgr)
    (hsteps : Relation.ReflTransGen Step w w') :
    ∀ cid n, ¬(n ∈ (mapGet w'.mgr.enabledOverrides cid).getD [] ∧
      n ∈ (mapGet w'.mgr.disabledOverrides cid).getD []) := by
  have hinv2 : OverrideInv w'.mgr := by
    induction hsteps with
    | refl => exact hinv
    | tail hab hbc ih => exact OverrideInv_step _ _ hbc ih
  intro cid n hand
  exact hinv2.2 cid n hand.1 hand.2

theorem OverrideInv_emptyMgr : OverrideInv emptyMgr := by
  refine ⟨⟨by decide, by decide⟩, ?_⟩
  intro cid n h1
  simp [emptyMgr, mapGet] at h1

/-- Witness for the amended C2: after loading `coreCollection` into a fresh
manager and then disabling `logger`, the name `logger` is not in both
override sets of `core`. -/
theorem C2_override_sets_disjoint_witness :
    ¬("logger" ∈ (mapGet (disablePlugin (loadCollection
        { mgr := emptyMgr, reg := emptyReg } coreCollection).1 "core"
        "logger").1.mgr.enabledOverrides "core").getD [] ∧
      "logger" ∈ (mapGet (disablePlugin (loadCollection
        { mgr := emptyMgr, reg := emptyReg } coreCollection).1 "core"
        "logger").1.mgr.disabledOverrides "core").getD []) :=
  C2_override_sets_disjoint { mgr := emptyMgr, reg := emptyReg } _
    OverrideInv_emptyMgr
    (Relation.ReflTransGen.tail
      (Relation.ReflTransGen.single
        (Step.load { mgr := emptyMgr, reg := emptyReg } coreCollection))
      (Step.disable _ "core" "logger"))
    "core" "logger"

end ClaudeFlow
